import Mathlib

/-!
Verification of the strict-mapping YAML loader in `orquesta/utils/yml.py`.

The file under verification wraps a standard YAML parser: a custom
`UniqueKeyLoader.construct_mapping` rejects duplicate and unhashable mapping
keys, and `safe_load` re-raises every underlying failure as a single
normalized error whose message is
`Failed to load workflow definition because <original message>.`.

Embedding choices:
- The text-to-node stage (scanner, parser, composer, resolver) belongs to the
  external YAML library, not to this repository.  A document is therefore
  represented by the outcome of that stage: either a rendered parse-error
  message, or the composed node tree (`none` for an empty document).  Tags on
  nodes stand for the tags the resolver assigns from the document text.
- Nodes and constructed values are mutual inductive trees with their own list
  types, so that all functions are structurally recursive and kernel
  evaluable.
- The constructor dispatch, the scalar constructors for the core tags
  (null, bool, int, str), the kind checks with their messages, and the
  rendering of `MarkedYAMLError.__str__` are modelled from the standard YAML
  library semantics that the spec refers to; floats, timestamps and the other
  non-core tags are outside the model (documents using them fail with the
  undefined-constructor error here).  `construct_mapping`, `constructPairs`
  and `safe_load` are translated directly from the source file.
-/

/-- Position of a node in the source document (the YAML `Mark`). -/
structure Mark where
  line : Nat
  column : Nat

/-- Rendering of `Mark.__str__` for a string input (without a buffer snippet):
`  in "<unicode string>", line L+1, column C+1`. -/
def markStr (m : Mark) : String :=
  "  in \"<unicode string>\", line " ++ toString (m.line + 1) ++
    ", column " ++ toString (m.column + 1)

def nullTag : String := "tag:yaml.org,2002:null"

def boolTag : String := "tag:yaml.org,2002:bool"

def intTag : String := "tag:yaml.org,2002:int"

def strTag : String := "tag:yaml.org,2002:str"

def seqTag : String := "tag:yaml.org,2002:seq"

def mapTag : String := "tag:yaml.org,2002:map"

mutual
/-- Composed YAML node (`yaml.nodes.Node`): a scalar, sequence or mapping
node, carrying its resolved tag and its start mark. -/
inductive Node where
  | scalar (tag : String) (value : String) (mark : Mark)
  | sequence (tag : String) (value : NodeList) (mark : Mark)
  | mapping (tag : String) (value : NodePairs) (mark : Mark)
/-- Children of a sequence node, in document order. -/
inductive NodeList where
  | nil
  | cons (head : Node) (tail : NodeList)
/-- Key and value nodes of a mapping node, in document order. -/
inductive NodePairs where
  | nil
  | cons (key : Node) (val : Node) (tail : NodePairs)
end

/-- Kind name of a node (`node.id` in the library: the class-level `id`
attribute used in the `expected a mapping node, but found %s` message). -/
def Node.id : Node → String
  | .scalar _ _ _ => "scalar"
  | .sequence _ _ _ => "sequence"
  | .mapping _ _ _ => "mapping"

/-- Start mark of a node (`node.start_mark`). -/
def Node.start_mark : Node → Mark
  | .scalar _ _ m => m
  | .sequence _ _ m => m
  | .mapping _ _ m => m

/-- Text interpolated by `'found duplicate key "%s"' % key_node.value`.  For a
scalar node `node.value` is the scalar text.  For sequence and mapping nodes
Python would format the list of child nodes; those nodes never reach the
duplicate branch (their constructed values are unhashable, or their
construction fails first), so a placeholder rendering suffices. -/
def Node.valueText : Node → String
  | .scalar _ v _ => v
  | .sequence _ _ _ => "<sequence node value>"
  | .mapping _ _ _ => "<mapping node value>"

def Node.isScalar : Node → Bool
  | .scalar _ _ _ => true
  | _ => false

def Node.isMapping : Node → Bool
  | .mapping _ _ _ => true
  | _ => false

mutual
/-- Native value produced by construction (the Python object). -/
inductive Obj where
  | null
  | bool (b : Bool)
  | int (n : Int)
  | str (s : String)
  | list (xs : ObjList)
  | dict (ps : ObjDict)
/-- Elements of a constructed list, in order. -/
inductive ObjList where
  | nil
  | cons (head : Obj) (tail : ObjList)
/-- Entries of a constructed dict, in insertion order. -/
inductive ObjDict where
  | nil
  | cons (key : Obj) (val : Obj) (tail : ObjDict)
end

/-- Whether `hash(key)` succeeds in Python: scalars are hashable, lists and
dicts are not. -/
def Obj.hashable : Obj → Bool
  | .list _ => false
  | .dict _ => false
  | _ => true

/-- Python type name of a value, as it appears in the `TypeError` message
`unhashable type: <name>`. -/
def Obj.typeName : Obj → String
  | .null => "NoneType"
  | .bool _ => "bool"
  | .int _ => "int"
  | .str _ => "str"
  | .list _ => "list"
  | .dict _ => "dict"

mutual
/-- Python equality (`==`) on constructed values.  Booleans and integers
compare across kinds (`True == 1`, `False == 0`).  Container equality is
structural here; in `construct_mapping` it is only ever applied to hashable
keys, and container-valued keys are rejected as unhashable before any
equality test, so the container branches are never exercised there. -/
def pyEq : Obj → Obj → Bool
  | .null, .null => true
  | .bool a, .bool b => a == b
  | .bool a, .int b => (if a then (1 : Int) else 0) == b
  | .int a, .bool b => a == (if b then (1 : Int) else 0)
  | .int a, .int b => a == b
  | .str a, .str b => a == b
  | .list a, .list b => pyEqL a b
  | .dict a, .dict b => pyEqD a b
  | _, _ => false
def pyEqL : ObjList → ObjList → Bool
  | .nil, .nil => true
  | .cons a r, .cons b s => pyEq a b && pyEqL r s
  | _, _ => false
def pyEqD : ObjDict → ObjDict → Bool
  | .nil, .nil => true
  | .cons k v r, .cons k2 v2 s => pyEq k k2 && pyEq v v2 && pyEqD r s
  | _, _ => false
end

/-- Membership test `key in mapping`: some stored key compares equal to the
probe. -/
def containsKey : ObjDict → Obj → Bool
  | .nil, _ => false
  | .cons k0 _ r, k => pyEq k0 k || containsKey r k

def ObjDict.append : ObjDict → ObjDict → ObjDict
  | .nil, d => d
  | .cons k v r, d => .cons k v (ObjDict.append r d)

/-- Insertion of a fresh key at the end (`mapping[key] = value` for a key not
yet present keeps insertion order). -/
def ObjDict.snoc (d : ObjDict) (k v : Obj) : ObjDict :=
  d.append (.cons k v .nil)

def NodePairs.append : NodePairs → NodePairs → NodePairs
  | .nil, q => q
  | .cons k v r, q => .cons k v (NodePairs.append r q)

/-- Single-quote character, used in rendered Python messages. -/
def quoteCh : String := String.singleton (Char.ofNat 39)

/-- Errors raised during construction.  `constructorError` carries the four
fields of `yaml.constructor.ConstructorError` (context, context mark,
problem, problem mark); `valueError` and `keyError` stand for the plain
Python errors escaping the int and bool scalar constructors. -/
inductive PyErr where
  | constructorError (context : Option String) (contextMark : Option Mark)
      (problem : Option String) (problemMark : Option Mark)
  | valueError (msg : String)
  | keyError (key : String)

def joinLines : List String → String
  | [] => ""
  | [x] => x
  | x :: r => x ++ "\n" ++ joinLines r

/-- Rendering of `str(e)`.  For a `ConstructorError` this follows
`MarkedYAMLError.__str__`: the context, the context mark (shown unless both
problem and problem mark are present and the context mark points at the same
position), the problem and the problem mark, joined by newlines.  `str` of a
`KeyError` is the repr of its argument (the quoted key). -/
def PyErr.str : PyErr → String
  | .constructorError ctx cm prob pm =>
    let l1 : List String := match ctx with
      | some c => [c]
      | none => []
    let l2 : List String := match cm with
      | some m =>
        (match prob, pm with
         | some _, some p =>
           if m.line == p.line && m.column == p.column then [] else [markStr m]
         | _, _ => [markStr m])
      | none => []
    let l3 : List String := match prob with
      | some p => [p]
      | none => []
    let l4 : List String := match pm with
      | some p => [markStr p]
      | none => []
    joinLines (l1 ++ l2 ++ l3 ++ l4)
  | .valueError msg => msg
  | .keyError key => quoteCh ++ key ++ quoteCh

def lowerChar (c : Char) : Char :=
  if c.toNat ≥ 65 && c.toNat ≤ 90 then Char.ofNat (c.toNat + 32) else c

/-- ASCII lower-casing of a string (`value.lower()` on the values the
resolver produces). -/
def strLower (s : String) : String :=
  ⟨s.data.map lowerChar⟩

/-- Lookup in `SafeConstructor.bool_values` after lower-casing. -/
def boolVal (v : String) : Option Bool :=
  let lv := strLower v
  if lv = "yes" then some true
  else if lv = "no" then some false
  else if lv = "true" then some true
  else if lv = "false" then some false
  else if lv = "on" then some true
  else if lv = "off" then some false
  else none

def digitVal (base : Nat) (c : Char) : Option Nat :=
  let n := c.toNat
  let d :=
    if n ≥ 48 && n ≤ 57 then some (n - 48)
    else if n ≥ 97 && n ≤ 102 then some (n - 87)
    else if n ≥ 65 && n ≤ 70 then some (n - 55)
    else none
  match d with
  | some d => if d < base then some d else none
  | none => none

def parseNatBase (base : Nat) (acc : Nat) : List Char → Option Nat
  | [] => some acc
  | c :: r =>
    match digitVal base c with
    | some d => parseNatBase base (acc * base + d) r
    | none => none

/-- Digits-only parse in a given base (`int(s, base)` on a sign-free string;
the empty string is rejected). -/
def parseNat (base : Nat) : List Char → Option Nat
  | [] => none
  | c :: r => parseNatBase base 0 (c :: r)

/-- Integer scalar construction, from `SafeConstructor.construct_yaml_int`:
strip underscores, take the sign, then `0` itself, `0b` binary, `0x` hex, a
leading `0` octal, otherwise decimal.  The sexagesimal form (with `:`) is
outside the model and is mapped to a failed parse. -/
def intVal (v : String) : Option Int :=
  let chars := v.data.filter (fun c => c ≠ '_')
  match chars with
  | [] => none
  | c :: rest =>
    let sign : Int := if c = '-' then -1 else 1
    let ds := if c = '-' ∨ c = '+' then rest else c :: rest
    match ds with
    | [] => none
    | ['0'] => some 0
    | '0' :: 'b' :: t => (parseNat 2 t).map (fun n => sign * (n : Int))
    | '0' :: 'x' :: t => (parseNat 16 t).map (fun n => sign * (n : Int))
    | '0' :: t => (parseNat 8 ('0' :: t)).map (fun n => sign * (n : Int))
    | t =>
      if t.contains ':' then none
      else (parseNat 10 t).map (fun n => sign * (n : Int))

/-- Construction of a scalar node value, dispatching on the resolved tag to
`construct_yaml_null`, `construct_yaml_bool`, `construct_yaml_int` and
`construct_yaml_str`.  A failed `bool_values` lookup raises the `KeyError`,
a failed int conversion raises the `ValueError` (its exact Python text is
approximated; no claim depends on it), and an unknown tag raises the
undefined-constructor error. -/
def constructScalarValue (tag v : String) (mark : Mark) : Except PyErr Obj :=
  if tag = nullTag then .ok .null
  else if tag = boolTag then
    match boolVal v with
    | some b => .ok (.bool b)
    | none => .error (.keyError (strLower v))
  else if tag = intTag then
    match intVal v with
    | some i => .ok (.int i)
    | none => .error (.valueError ("invalid literal for int: " ++ quoteCh ++ v ++ quoteCh))
  else if tag = strTag then .ok (.str v)
  else
    .error (.constructorError none none
      (some ("could not determine a constructor for the tag " ++ quoteCh ++ tag ++ quoteCh))
      (some mark))

/-- Kind-check failure of `construct_scalar`, `construct_sequence` and
`UniqueKeyLoader.construct_mapping`:
`ConstructorError(None, None, "expected a KIND node, but found %s" % node.id,
node.start_mark)`. -/
def expectedKindErr (expected found : String) (mark : Mark) : PyErr :=
  .constructorError none none
    (some ("expected a " ++ expected ++ " node, but found " ++ found))
    (some mark)

/-- Error of the duplicate-key branch, translated from
`raise constructor.ConstructorError('found duplicate key "%s"' % key_node.value)`:
only the context is set, no marks. -/
def dupKeyErr (lit : String) : PyErr :=
  .constructorError (some ("found duplicate key \"" ++ lit ++ "\"")) none none none

/-- Error of the unhashable-key branch, translated from the source:
`ConstructorError("while constructing a mapping", node.start_mark,
"found unacceptable key (%s)" % exc, key_node.start_mark)` where `exc` is the
`TypeError` from `hash(key)`. -/
def unacceptableKeyErr (nodeMark : Mark) (key : Obj) (keyMark : Mark) : PyErr :=
  .constructorError (some "while constructing a mapping") (some nodeMark)
    (some ("found unacceptable key (unhashable type: " ++ quoteCh ++ key.typeName ++ quoteCh ++ ")"))
    (some keyMark)

mutual
/-- Constructor dispatch on the node tag (`BaseConstructor.construct_object`
with the `SafeLoader` constructor table, where the mapping tag is bound to
`UniqueKeyLoader.construct_mapping` by the module-level `yaml.add_constructor`
call).  Each constructor kind-checks the node it receives. -/
def constructObject : Node → Except PyErr Obj
  | .scalar tag v mark =>
    if tag = mapTag then .error (expectedKindErr "mapping" "scalar" mark)
    else if tag = seqTag then .error (expectedKindErr "sequence" "scalar" mark)
    else constructScalarValue tag v mark
  | .sequence tag ch mark =>
    if tag = mapTag then .error (expectedKindErr "mapping" "sequence" mark)
    else if tag = seqTag then
      match constructList ch with
      | .ok xs => .ok (.list xs)
      | .error e => .error e
    else if tag = nullTag ∨ tag = boolTag ∨ tag = intTag ∨ tag = strTag then
      .error (expectedKindErr "scalar" "sequence" mark)
    else
      .error (.constructorError none none
        (some ("could not determine a constructor for the tag " ++ quoteCh ++ tag ++ quoteCh))
        (some mark))
  | .mapping tag ps mark =>
    if tag = mapTag then
      match constructPairs mark ps .nil with
      | .ok d => .ok (.dict d)
      | .error e => .error e
    else if tag = seqTag then .error (expectedKindErr "sequence" "mapping" mark)
    else if tag = nullTag ∨ tag = boolTag ∨ tag = intTag ∨ tag = strTag then
      .error (expectedKindErr "scalar" "mapping" mark)
    else
      .error (.constructorError none none
        (some ("could not determine a constructor for the tag " ++ quoteCh ++ tag ++ quoteCh))
        (some mark))
/-- Construction of the children of a sequence node, in order; the first
failure propagates. -/
def constructList : NodeList → Except PyErr ObjList
  | .nil => .ok .nil
  | .cons n r =>
    match constructObject n with
    | .error e => .error e
    | .ok v =>
      match constructList r with
      | .error e => .error e
      | .ok vs => .ok (.cons v vs)
/-- Loop body of `UniqueKeyLoader.construct_mapping`, translated line by line
from the source: construct the key, reject an unhashable key, reject a key
already present, construct the value, insert.  `mark` is the start mark of
the enclosing mapping node; `mapping` is the dict built so far. -/
def constructPairs (mark : Mark) : NodePairs → ObjDict → Except PyErr ObjDict
  | .nil, mapping => .ok mapping
  | .cons key_node value_node rest, mapping =>
    match constructObject key_node with
    | .error e => .error e
    | .ok key =>
      if key.hashable then
        if containsKey mapping key then .error (dupKeyErr key_node.valueText)
        else
          match constructObject value_node with
          | .error e => .error e
          | .ok value => constructPairs mark rest (mapping.snoc key value)
      else .error (unacceptableKeyErr mark key key_node.start_mark)
end

/-- Translation of `UniqueKeyLoader.construct_mapping`: kind-check the node,
then run the loop with an empty dict. -/
def construct_mapping (node : Node) : Except PyErr ObjDict :=
  match node with
  | .mapping _ ps mark => constructPairs mark ps .nil
  | n =>
    .error (.constructorError none none
      (some ("expected a mapping node, but found " ++ n.id)) (some n.start_mark))

/-- Modelled from the spec: the behaviour of `yaml.load(definition, SafeLoader)`
on top of the parse stage, which is the external YAML library and is not in
the repository.  The input is the outcome of that stage: a rendered
parse-error message, or the composed node tree, `none` when the document is
empty (the library then returns `None`).  On a node the registered
constructors run; a raised error is rendered with `str`. -/
def yaml_load : Except String (Option Node) → Except String Obj
  | .error e => .error e
  | .ok none => .ok .null
  | .ok (some n) =>
    match constructObject n with
    | .ok v => .ok v
    | .error e => .error e.str

/-- Translation of `safe_load`: delegate to `yaml.load` and re-raise any
failure as the single normalized error
`Failed to load workflow definition because <str(e)>.`. -/
def safe_load (parsed : Except String (Option Node)) : Except String Obj :=
  match yaml_load parsed with
  | .ok v => .ok v
  | .error e => .error ("Failed to load workflow definition because " ++ e ++ ".")

/-- Message of the underlying error that `safe_load` would wrap, when there
is one. -/
def underlyingErr (parsed : Except String (Option Node)) : Option String :=
  match yaml_load parsed with
  | .ok _ => none
  | .error e => some e

/-- Prefix test on character lists. -/
def isPrefixL : List Char → List Char → Bool
  | [], _ => true
  | _ :: _, [] => false
  | a :: s, b :: t => a == b && isPrefixL s t

/-- Substring test on character lists: `sub` occurs somewhere in the second
argument. -/
def containsSubL (sub : List Char) : List Char → Bool
  | [] => isPrefixL sub []
  | c :: t => isPrefixL sub (c :: t) || containsSubL sub t

/-- Substring test on strings. -/
def strContains (hay sub : String) : Bool :=
  containsSubL sub.data hay.data

mutual
/-- Simple documents: every scalar node carries one of the four core tags and
its text parses under that tag, sequence and mapping nodes carry their
canonical tags, and every mapping key is a scalar node.  This is the class of
documents over which the success and duplicate-failure claims are stated. -/
def simpleN : Node → Bool
  | .scalar tag v mark => (constructScalarValue tag v mark).isOk
  | .sequence tag ch _ => tag == seqTag && simpleL ch
  | .mapping tag ps _ => tag == mapTag && simpleP ps
def simpleL : NodeList → Bool
  | .nil => true
  | .cons n r => simpleN n && simpleL r
def simpleP : NodePairs → Bool
  | .nil => true
  | .cons kn vn r => kn.isScalar && simpleN kn && simpleN vn && simpleP r
end

/-- No later key of the pair list constructs to a value equal to `k`. -/
def keyNotIn (k : Obj) : NodePairs → Bool
  | .nil => true
  | .cons kn _ r =>
    (match constructObject kn with
     | .ok k2 => !(pyEq k k2)
     | .error _ => true) && keyNotIn k r

/-- The constructed key values of a pair list are pairwise unequal. -/
def keysDistinct : NodePairs → Bool
  | .nil => true
  | .cons kn _ r =>
    (match constructObject kn with
     | .ok k => keyNotIn k r
     | .error _ => true) && keysDistinct r

mutual
/-- No mapping anywhere in the tree has two keys whose constructed values
compare equal.  This is the formal reading of a document with no duplicate
mapping keys at any nesting level. -/
def noDupN : Node → Bool
  | .scalar _ _ _ => true
  | .sequence _ ch _ => noDupL ch
  | .mapping _ ps _ => keysDistinct ps && noDupP ps
def noDupL : NodeList → Bool
  | .nil => true
  | .cons n r => noDupN n && noDupL r
def noDupP : NodePairs → Bool
  | .nil => true
  | .cons kn vn r => noDupN kn && noDupN vn && noDupP r
end

/-- No key of the pair list constructs to a value already stored in `acc`. -/
def freshKeys (acc : ObjDict) : NodePairs → Bool
  | .nil => true
  | .cons kn _ r =>
    (match constructObject kn with
     | .ok k => !(containsKey acc k)
     | .error _ => true) && freshKeys acc r

mutual
/-- Reference meaning of a document: the tree of native values read directly
off the nodes, keeping every mapping entry in document order.  This is the
structure the spec says a successful parse returns. -/
def objOfN : Node → Obj
  | .scalar tag v mark =>
    match constructScalarValue tag v mark with
    | .ok o => o
    | .error _ => .null
  | .sequence _ ch _ => .list (objOfL ch)
  | .mapping _ ps _ => .dict (objOfP ps)
def objOfL : NodeList → ObjList
  | .nil => .nil
  | .cons n r => .cons (objOfN n) (objOfL r)
def objOfP : NodePairs → ObjDict
  | .nil => .nil
  | .cons kn vn r => .cons (objOfN kn) (objOfN vn) (objOfP r)
end

/-- `k` compares unequal to every key stored in the dict. -/
def notInD (k : Obj) : ObjDict → Bool
  | .nil => true
  | .cons k2 _ r => !(pyEq k k2) && notInD k r

/-- Keys of the dict are pairwise unequal. -/
def distinctD : ObjDict → Bool
  | .nil => true
  | .cons k _ r => notInD k r && distinctD r

mutual
/-- Every dict nested anywhere in the value has pairwise unequal keys. -/
def uniqKeysO : Obj → Bool
  | .list xs => uniqKeysOL xs
  | .dict d => distinctD d && uniqKeysOD d
  | _ => true
def uniqKeysOL : ObjList → Bool
  | .nil => true
  | .cons x r => uniqKeysO x && uniqKeysOL r
def uniqKeysOD : ObjDict → Bool
  | .nil => true
  | .cons k v r => uniqKeysO k && uniqKeysO v && uniqKeysOD r
end

mutual
/-- Structural correspondence between a document and a constructed value:
scalars construct to the value, and every sequence and mapping lists exactly
the children of the node, in document order. -/
def nodeMatches : Node → Obj → Prop
  | .scalar tag v mark, o => constructScalarValue tag v mark = .ok o
  | .sequence _ ch _, .list xs => listMatches ch xs
  | .mapping _ ps _, .dict d => pairsMatchP ps d
  | _, _ => False
def listMatches : NodeList → ObjList → Prop
  | .nil, .nil => True
  | .cons n r, .cons x s => nodeMatches n x ∧ listMatches r s
  | _, _ => False
def pairsMatchP : NodePairs → ObjDict → Prop
  | .nil, .nil => True
  | .cons kn vn r, .cons k v s => nodeMatches kn k ∧ nodeMatches vn v ∧ pairsMatchP r s
  | _, _ => False
end

mutual
/-- Witness that `s` is the literal text of a key node whose constructed
value collides with an earlier key of the same mapping, somewhere in the
tree. -/
def dupLitN : Node → String → Bool
  | .scalar _ _ _, _ => false
  | .sequence _ ch _, s => dupLitL ch s
  | .mapping _ ps _, s => dupLitFrom ObjDict.nil ps s
def dupLitL : NodeList → String → Bool
  | .nil, _ => false
  | .cons n r, s => dupLitN n s || dupLitL r s
/-- Same witness inside one mapping, where `acc` holds the entries of the
keys already inserted before the remaining pairs. -/
def dupLitFrom : ObjDict → NodePairs → String → Bool
  | _, .nil, _ => false
  | acc, .cons kn vn r, s =>
    match constructObject kn with
    | .ok k =>
      (containsKey acc k && kn.valueText == s)
        || dupLitN vn s
        || dupLitFrom (acc.snoc k (objOfN vn)) r s
    | .error _ => false
end

/-- Two textually identical scalar key nodes: same resolved tag and same
scalar text (marks may differ). -/
def scalarNodeEq : Node → Node → Bool
  | .scalar t1 v1 _, .scalar t2 v2 _ => t1 == t2 && v1 == v2
  | _, _ => false

/-- Some later key of the pair list is textually identical to `kn`. -/
def keyTextIn (kn : Node) : NodePairs → Bool
  | .nil => false
  | .cons kn2 _ r => scalarNodeEq kn kn2 || keyTextIn kn r

mutual
/-- Some mapping in the tree contains two textually identical keys. -/
def textualDupN : Node → Bool
  | .scalar _ _ _ => false
  | .sequence _ ch _ => textualDupL ch
  | .mapping _ ps _ => textualDupP ps
def textualDupL : NodeList → Bool
  | .nil => false
  | .cons n r => textualDupN n || textualDupL r
def textualDupP : NodePairs → Bool
  | .nil => false
  | .cons kn vn r => keyTextIn kn r || textualDupN vn || textualDupP r
end

/-- Hashable values that are not strings (numbers, booleans, null). -/
def nonStrHashable : Obj → Bool
  | .str _ => false
  | .list _ => false
  | .dict _ => false
  | _ => true

mutual
/-- Every mapping key in the tree constructs to a hashable non-string
scalar. -/
def keysNonStrN : Node → Bool
  | .scalar _ _ _ => true
  | .sequence _ ch _ => keysNonStrL ch
  | .mapping _ ps _ => keysNonStrP ps
def keysNonStrL : NodeList → Bool
  | .nil => true
  | .cons n r => keysNonStrN n && keysNonStrL r
def keysNonStrP : NodePairs → Bool
  | .nil => true
  | .cons kn vn r =>
    (match constructObject kn with
     | .ok k => nonStrHashable k
     | .error _ => false) && keysNonStrN vn && keysNonStrP r
end

theorem str_data_append (a b : String) : (a ++ b).data = a.data ++ b.data := by
  cases a; cases b; rfl

theorem isPrefixL_iff (s : List Char) : ∀ h, isPrefixL s h = true ↔ ∃ r, h = s ++ r := by
  induction s with
  | nil => intro h; simp [isPrefixL]
  | cons a s ih =>
    intro h
    cases h with
    | nil =>
      simp [isPrefixL]
    | cons b t =>
      simp only [isPrefixL, Bool.and_eq_true, beq_iff_eq, List.cons_append]
      constructor
      · rintro ⟨rfl, hp⟩
        obtain ⟨r, rfl⟩ := (ih t).1 hp
        exact ⟨r, rfl⟩
      · rintro ⟨r, hr⟩
        injection hr with h1 h2
        exact ⟨h1.symm, (ih t).2 ⟨r, h2⟩⟩

theorem containsSubL_iff (s : List Char) : ∀ h, containsSubL s h = true ↔ ∃ l r, h = l ++ s ++ r := by
  intro h
  induction h with
  | nil =>
    simp only [containsSubL, isPrefixL_iff]
    constructor
    · rintro ⟨r, hr⟩
      exact ⟨[], r, by simpa using hr⟩
    · rintro ⟨l, r, hl⟩
      have : l = [] ∧ s ++ r = [] := by
        constructor
        · cases l with
          | nil => rfl
          | cons x t => simp at hl
        · cases l with
          | nil => simpa using hl.symm
          | cons x t => simp at hl
      exact ⟨r, by simp [this.2.symm]⟩
  | cons c t ih =>
    simp only [containsSubL, Bool.or_eq_true, isPrefixL_iff, ih]
    constructor
    · rintro (⟨r, hr⟩ | ⟨l, r, rfl⟩)
      · exact ⟨[], r, by simp [hr]⟩
      · exact ⟨c :: l, r, by simp⟩
    · rintro ⟨l, r, hl⟩
      cases l with
      | nil => exact Or.inl ⟨r, by simpa using hl⟩
      | cons x l =>
        right
        injection hl with h1 h2
        exact ⟨l, r, h2⟩

theorem strContains_iff (h s : String) :
    strContains h s = true ↔ ∃ l r, h.data = l ++ s.data ++ r := by
  simpa [strContains] using containsSubL_iff s.data h.data

theorem strContains_self (s : String) : strContains s s = true := by
  rw [strContains_iff]
  exact ⟨[], [], by simp⟩

theorem strContains_append_left (a b s : String) (h : strContains a s = true) :
    strContains (a ++ b) s = true := by
  rw [strContains_iff] at h ⊢
  obtain ⟨l, r, hr⟩ := h
  exact ⟨l, r ++ b.data, by simp [str_data_append, hr]⟩

theorem strContains_append_right (a b s : String) (h : strContains b s = true) :
    strContains (a ++ b) s = true := by
  rw [strContains_iff] at h ⊢
  obtain ⟨l, r, hr⟩ := h
  exact ⟨a.data ++ l, r, by simp [str_data_append, hr]⟩

theorem strContains_joinLines (lines : List String) (p : String) (hp : p ∈ lines) :
    strContains (joinLines lines) p = true := by
  induction lines with
  | nil => cases hp
  | cons x r ih =>
    cases r with
    | nil =>
      have hx : p = x := by simpa using hp
      subst hx
      simpa [joinLines] using strContains_self p
    | cons y t =>
      rcases List.mem_cons.mp hp with rfl | hmem
      · have h1 := strContains_append_left p "\n" p (strContains_self p)
        have h2 := strContains_append_left (p ++ "\n") (joinLines (y :: t)) p h1
        simpa [joinLines] using h2
      · have h1 := ih hmem
        have h2 := strContains_append_right (x ++ "\n") (joinLines (y :: t)) p h1
        simpa [joinLines] using h2

theorem isOk_exists {e : Except PyErr Obj} (h : e.isOk = true) : ∃ o, e = .ok o := by
  cases e with
  | ok o => exact ⟨o, rfl⟩
  | error _ => simp [Except.isOk, Except.toBool] at h

theorem csv_cases {tag v : String} {mark : Mark} {o : Obj}
    (h : constructScalarValue tag v mark = .ok o) :
    o = .null ∨ (∃ b, o = .bool b) ∨ (∃ i, o = .int i) ∨ (∃ s, o = .str s) := by
  unfold constructScalarValue at h
  split at h
  · left; injection h with h; exact h.symm
  · split at h
    · split at h
      · right; left; injection h with h; exact ⟨_, h.symm⟩
      · cases h
    · split at h
      · split at h
        · right; right; left; injection h with h; exact ⟨_, h.symm⟩
        · cases h
      · split at h
        · right; right; right; injection h with h; exact ⟨_, h.symm⟩
        · cases h

theorem csv_hashable {tag v : String} {mark : Mark} {o : Obj}
    (h : constructScalarValue tag v mark = .ok o) : o.hashable = true := by
  rcases csv_cases h with rfl | ⟨b, rfl⟩ | ⟨i, rfl⟩ | ⟨s, rfl⟩ <;> rfl

theorem csv_uniq {tag v : String} {mark : Mark} {o : Obj}
    (h : constructScalarValue tag v mark = .ok o) : uniqKeysO o = true := by
  rcases csv_cases h with rfl | ⟨b, rfl⟩ | ⟨i, rfl⟩ | ⟨s, rfl⟩ <;> rfl

theorem csv_pyEq_refl {tag v : String} {mark : Mark} {o : Obj}
    (h : constructScalarValue tag v mark = .ok o) : pyEq o o = true := by
  rcases csv_cases h with rfl | ⟨b, rfl⟩ | ⟨i, rfl⟩ | ⟨s, rfl⟩ <;> simp [pyEq]

theorem csv_core_tag {tag v : String} {mark : Mark}
    (h : (constructScalarValue tag v mark).isOk = true) :
    tag = nullTag ∨ tag = boolTag ∨ tag = intTag ∨ tag = strTag := by
  by_cases h1 : tag = nullTag
  · exact Or.inl h1
  by_cases h2 : tag = boolTag
  · exact Or.inr (Or.inl h2)
  by_cases h3 : tag = intTag
  · exact Or.inr (Or.inr (Or.inl h3))
  by_cases h4 : tag = strTag
  · exact Or.inr (Or.inr (Or.inr h4))
  exfalso
  unfold constructScalarValue at h
  rw [if_neg h1, if_neg h2, if_neg h3, if_neg h4] at h
  simp [Except.isOk, Except.toBool] at h

theorem csv_mark_irrel {tag v : String} {mark : Mark} {o : Obj}
    (h : constructScalarValue tag v mark = .ok o) (mark2 : Mark) :
    constructScalarValue tag v mark2 = .ok o := by
  have hok : (constructScalarValue tag v mark).isOk = true := by rw [h]; rfl
  rcases csv_core_tag hok with rfl | rfl | rfl | rfl
  · simpa [constructScalarValue] using h
  · have d1 : ¬ (boolTag = nullTag) := by decide
    simp only [constructScalarValue, if_neg d1, if_pos rfl] at h ⊢
    exact h
  · have d1 : ¬ (intTag = nullTag) := by decide
    have d2 : ¬ (intTag = boolTag) := by decide
    simp only [constructScalarValue, if_neg d1, if_neg d2, if_pos rfl] at h ⊢
    exact h
  · have d1 : ¬ (strTag = nullTag) := by decide
    have d2 : ¬ (strTag = boolTag) := by decide
    have d3 : ¬ (strTag = intTag) := by decide
    simp only [constructScalarValue, if_neg d1, if_neg d2, if_neg d3, if_pos rfl] at h ⊢
    exact h

theorem tag_ne_mapTag {tag v : String} {mark : Mark}
    (h : (constructScalarValue tag v mark).isOk = true) :
    ¬ (tag = mapTag) ∧ ¬ (tag = seqTag) := by
  rcases csv_core_tag h with rfl | rfl | rfl | rfl <;> exact ⟨by decide, by decide⟩

theorem constructObject_scalar {tag v : String} {mark : Mark}
    (h : (constructScalarValue tag v mark).isOk = true) :
    constructObject (.scalar tag v mark) = constructScalarValue tag v mark := by
  obtain ⟨hm, hs⟩ := tag_ne_mapTag h
  simp [constructObject, hm, hs]

theorem objOfN_scalar {tag v : String} {mark : Mark} {o : Obj}
    (h : constructScalarValue tag v mark = .ok o) :
    objOfN (.scalar tag v mark) = o := by
  simp [objOfN, h]

theorem containsKey_snoc : ∀ (d : ObjDict) (k v k2 : Obj),
    containsKey (d.snoc k v) k2 = (containsKey d k2 || pyEq k k2) := by
  intro d
  match d with
  | .nil => intro k v k2; simp [ObjDict.snoc, ObjDict.append, containsKey]
  | .cons k0 v0 r =>
    intro k v k2
    have ih := containsKey_snoc r k v k2
    simp only [ObjDict.snoc, ObjDict.append, containsKey] at ih ⊢
    rw [ih, Bool.or_assoc]

theorem notInD_snoc : ∀ (e : Obj) (d : ObjDict) (k v : Obj),
    notInD e (d.snoc k v) = (notInD e d && !(pyEq e k)) := by
  intro e d
  match d with
  | .nil => intro k v; simp [ObjDict.snoc, ObjDict.append, notInD]
  | .cons k0 v0 r =>
    intro k v
    have ih := notInD_snoc e r k v
    simp only [ObjDict.snoc, ObjDict.append, notInD] at ih ⊢
    rw [ih, Bool.and_assoc]

theorem distinctD_snoc : ∀ (d : ObjDict) (k v : Obj),
    distinctD (d.snoc k v) = (distinctD d && !(containsKey d k)) := by
  intro d
  match d with
  | .nil => intro k v; simp [ObjDict.snoc, ObjDict.append, distinctD, notInD, containsKey]
  | .cons k0 v0 r =>
    intro k v
    have ih := distinctD_snoc r k v
    simp only [ObjDict.snoc, ObjDict.append, distinctD, containsKey] at ih ⊢
    have hn := notInD_snoc k0 r k v
    simp only [ObjDict.snoc] at hn
    rw [hn, ih]
    cases notInD k0 r <;> cases distinctD r <;> cases pyEq k0 k <;>
      cases containsKey r k <;> rfl

theorem uniqKeysOD_snoc : ∀ (d : ObjDict) (k v : Obj),
    uniqKeysOD (d.snoc k v) = (uniqKeysOD d && (uniqKeysO k && uniqKeysO v)) := by
  intro d
  match d with
  | .nil => intro k v; simp [ObjDict.snoc, ObjDict.append, uniqKeysOD]
  | .cons k0 v0 r =>
    intro k v
    have ih := uniqKeysOD_snoc r k v
    simp only [ObjDict.snoc, ObjDict.append, uniqKeysOD] at ih ⊢
    rw [ih]
    cases uniqKeysO k0 <;> cases uniqKeysO v0 <;> cases uniqKeysOD r <;>
      cases uniqKeysO k <;> cases uniqKeysO v <;> rfl

theorem snoc_append : ∀ (d : ObjDict) (k v : Obj) (e : ObjDict),
    (d.snoc k v).append e = d.append (.cons k v e) := by
  intro d
  match d with
  | .nil => intro k v e; rfl
  | .cons k0 v0 r =>
    intro k v e
    have ih := snoc_append r k v e
    simp only [ObjDict.snoc, ObjDict.append] at ih ⊢
    rw [ih]

theorem append_nil_d : ∀ d : ObjDict, d.append .nil = d := by
  intro d
  match d with
  | .nil => rfl
  | .cons k v r =>
    have ih := append_nil_d r
    simp only [ObjDict.append]
    rw [ih]

theorem freshKeys_nil : ∀ ps : NodePairs, freshKeys .nil ps = true := by
  intro ps
  match ps with
  | .nil => rfl
  | .cons kn vn r =>
    have ih := freshKeys_nil r
    simp only [freshKeys, containsKey]
    cases h : constructObject kn with
    | ok k => simpa using ih
    | error e => simpa using ih

theorem keyNotIn_cons_ok {kn : Node} {k2 : Obj} (vn : Node) (r : NodePairs) (k : Obj)
    (h : constructObject kn = .ok k2) :
    keyNotIn k (.cons kn vn r) = (!(pyEq k k2) && keyNotIn k r) := by
  simp [keyNotIn, h]

theorem keyNotIn_cons_err {kn : Node} {e : PyErr} (vn : Node) (r : NodePairs) (k : Obj)
    (h : constructObject kn = .error e) :
    keyNotIn k (.cons kn vn r) = keyNotIn k r := by
  simp [keyNotIn, h]

theorem keysDistinct_cons_ok {kn : Node} {k : Obj} (vn : Node) (r : NodePairs)
    (h : constructObject kn = .ok k) :
    keysDistinct (.cons kn vn r) = (keyNotIn k r && keysDistinct r) := by
  simp [keysDistinct, h]

theorem freshKeys_cons_ok {kn : Node} {k : Obj} (acc : ObjDict) (vn : Node) (r : NodePairs)
    (h : constructObject kn = .ok k) :
    freshKeys acc (.cons kn vn r) = (!(containsKey acc k) && freshKeys acc r) := by
  simp [freshKeys, h]

theorem freshKeys_cons_err {kn : Node} {e : PyErr} (acc : ObjDict) (vn : Node) (r : NodePairs)
    (h : constructObject kn = .error e) :
    freshKeys acc (.cons kn vn r) = freshKeys acc r := by
  simp [freshKeys, h]

theorem dupLitFrom_cons_ok {kn : Node} {k : Obj} (acc : ObjDict) (vn : Node) (r : NodePairs)
    (s : String) (h : constructObject kn = .ok k) :
    dupLitFrom acc (.cons kn vn r) s =
      ((containsKey acc k && kn.valueText == s) || dupLitN vn s
        || dupLitFrom (acc.snoc k (objOfN vn)) r s) := by
  simp [dupLitFrom, h]

theorem keysNonStrP_cons_ok {kn : Node} {k : Obj} (vn : Node) (r : NodePairs)
    (h : constructObject kn = .ok k) :
    keysNonStrP (.cons kn vn r) = (nonStrHashable k && keysNonStrN vn && keysNonStrP r) := by
  simp [keysNonStrP, h]

theorem freshKeys_snoc : ∀ {acc : ObjDict} {r : NodePairs} {k v : Obj},
    freshKeys acc r = true → keyNotIn k r = true →
    freshKeys (acc.snoc k v) r = true := by
  intro acc r
  match r with
  | .nil => intro k v _ _; rfl
  | .cons kn vn rest =>
    intro k v hf hk
    cases h : constructObject kn with
    | ok k2 =>
      rw [freshKeys_cons_ok acc vn rest h, Bool.and_eq_true] at hf
      rw [keyNotIn_cons_ok vn rest k h, Bool.and_eq_true] at hk
      have h1 : containsKey acc k2 = false := by simpa using hf.1
      have h2 : pyEq k k2 = false := by simpa using hk.1
      have ih := freshKeys_snoc (k := k) (v := v) hf.2 hk.2
      rw [freshKeys_cons_ok (acc.snoc k v) vn rest h, Bool.and_eq_true]
      exact ⟨by simp [containsKey_snoc, h1, h2], ih⟩
    | error e =>
      rw [freshKeys_cons_err acc vn rest h] at hf
      rw [keyNotIn_cons_err vn rest k h] at hk
      have ih := freshKeys_snoc (k := k) (v := v) hf hk
      rw [freshKeys_cons_err (acc.snoc k v) vn rest h]
      exact ih

theorem freshKeys_unsnoc : ∀ {acc : ObjDict} {r : NodePairs} {k v : Obj},
    freshKeys (acc.snoc k v) r = true →
    freshKeys acc r = true ∧ keyNotIn k r = true := by
  intro acc r
  match r with
  | .nil => intro k v _; exact ⟨rfl, rfl⟩
  | .cons kn vn rest =>
    intro k v hf
    cases h : constructObject kn with
    | ok k2 =>
      rw [freshKeys_cons_ok (acc.snoc k v) vn rest h, Bool.and_eq_true] at hf
      obtain ⟨h1, h3⟩ := hf
      rw [containsKey_snoc] at h1
      simp at h1
      obtain ⟨h4, h5⟩ := freshKeys_unsnoc (k := k) (v := v) h3
      constructor
      · rw [freshKeys_cons_ok acc vn rest h, Bool.and_eq_true]
        exact ⟨by simp [h1.1], h4⟩
      · rw [keyNotIn_cons_ok vn rest k h, Bool.and_eq_true]
        exact ⟨by simp [h1.2], h5⟩
    | error e =>
      rw [freshKeys_cons_err (acc.snoc k v) vn rest h] at hf
      obtain ⟨h4, h5⟩ := freshKeys_unsnoc (k := k) (v := v) hf
      exact ⟨by rw [freshKeys_cons_err acc vn rest h]; exact h4,
        by rw [keyNotIn_cons_err vn rest k h]; exact h5⟩

mutual
theorem okN : ∀ n, simpleN n = true → noDupN n = true →
    constructObject n = .ok (objOfN n) := by
  intro n
  match n with
  | .scalar tag v mark =>
    intro hs _
    have hs2 : (constructScalarValue tag v mark).isOk = true := by simpa [simpleN] using hs
    obtain ⟨o, ho⟩ := isOk_exists hs2
    rw [constructObject_scalar hs2, ho, objOfN_scalar ho]
  | .sequence tag ch mark =>
    intro hs hd
    simp only [simpleN, Bool.and_eq_true, beq_iff_eq] at hs
    obtain ⟨rfl, hs⟩ := hs
    have hd2 : noDupL ch = true := by simpa [noDupN] using hd
    have hL := okL ch hs hd2
    have d1 : ¬ (seqTag = mapTag) := by decide
    simp [constructObject, d1, hL, objOfN]
  | .mapping tag ps mark =>
    intro hs hd
    simp only [simpleN, Bool.and_eq_true, beq_iff_eq] at hs
    obtain ⟨rfl, hs⟩ := hs
    simp only [noDupN, Bool.and_eq_true] at hd
    have hP := okP mark ps .nil hs hd.1 hd.2 (freshKeys_nil ps)
    simp [constructObject, hP, objOfN, ObjDict.append]
theorem okL : ∀ l, simpleL l = true → noDupL l = true →
    constructList l = .ok (objOfL l) := by
  intro l
  match l with
  | .nil => intro _ _; rfl
  | .cons n r =>
    intro hs hd
    simp only [simpleL, Bool.and_eq_true] at hs
    simp only [noDupL, Bool.and_eq_true] at hd
    have h1 := okN n hs.1 hd.1
    have h2 := okL r hs.2 hd.2
    simp [constructList, h1, h2, objOfL]
theorem okP : ∀ (mark : Mark) (ps : NodePairs) (acc : ObjDict),
    simpleP ps = true → keysDistinct ps = true → noDupP ps = true →
    freshKeys acc ps = true →
    constructPairs mark ps acc = .ok (acc.append (objOfP ps)) := by
  intro mark ps acc
  match ps with
  | .nil => intro _ _ _ _; simp [constructPairs, objOfP, append_nil_d]
  | .cons kn vn r =>
    intro hs hkd hd hf
    simp only [simpleP, Bool.and_eq_true] at hs
    obtain ⟨⟨⟨hsc, hkn⟩, hvn⟩, hr⟩ := hs
    simp only [noDupP, Bool.and_eq_true] at hd
    obtain ⟨⟨hdkn, hdvn⟩, hdr⟩ := hd
    match kn, hsc, hkn with
    | .scalar t v m, _, hkn =>
      have hkn2 : (constructScalarValue t v m).isOk = true := by simpa [simpleN] using hkn
      obtain ⟨k, hk⟩ := isOk_exists hkn2
      have hco : constructObject (Node.scalar t v m) = .ok k := by
        rw [constructObject_scalar hkn2, hk]
      rw [keysDistinct_cons_ok vn r hco, Bool.and_eq_true] at hkd
      rw [freshKeys_cons_ok acc vn r hco, Bool.and_eq_true] at hf
      have hfc : containsKey acc k = false := by simpa using hf.1
      have hv := okN vn hvn hdvn
      have hh : k.hashable = true := csv_hashable hk
      have ih := okP mark r (acc.snoc k (objOfN vn)) hr hkd.2 hdr
        (freshKeys_snoc hf.2 hkd.1)
      simp only [constructPairs, hco, hh, hfc, if_true, if_false, hv]
      rw [ih, snoc_append]
      simp [objOfP, objOfN_scalar hk]
end

theorem constructObject_seq (ch : NodeList) (mark : Mark) :
    constructObject (.sequence seqTag ch mark) =
      (match constructList ch with
       | .ok xs => .ok (.list xs)
       | .error e => .error e) := by
  have d1 : ¬ (seqTag = mapTag) := by decide
  simp [constructObject, d1]

theorem constructObject_map (ps : NodePairs) (mark : Mark) :
    constructObject (.mapping mapTag ps mark) =
      (match constructPairs mark ps .nil with
       | .ok d => .ok (.dict d)
       | .error e => .error e) := by
  simp [constructObject]

theorem constructObject_scalar_ok {t v : String} {m : Mark} {k : Obj}
    (hc : constructObject (.scalar t v m) = .ok k) :
    constructScalarValue t v m = .ok k := by
  by_cases h1 : t = mapTag
  · subst h1; simp [constructObject] at hc
  by_cases h2 : t = seqTag
  · subst h2; simp [constructObject, h1] at hc
  simpa only [constructObject, if_neg h1, if_neg h2] using hc

theorem constructPairs_cons_ok {kn : Node} {k : Obj}
    (hco : constructObject kn = .ok k) (hh : k.hashable = true)
    (mark : Mark) (vn : Node) (r : NodePairs) (acc : ObjDict) :
    constructPairs mark (.cons kn vn r) acc =
      (if containsKey acc k then .error (dupKeyErr kn.valueText)
       else match constructObject vn with
         | .error e => .error e
         | .ok value => constructPairs mark r (acc.snoc k value)) := by
  simp [constructPairs, hco, hh]

mutual
theorem shapeN : ∀ n v, simpleN n = true → constructObject n = .ok v → v = objOfN n := by
  intro n
  match n with
  | .scalar tag v0 mark =>
    intro v hs hc
    have hc2 := constructObject_scalar_ok hc
    exact (objOfN_scalar hc2).symm
  | .sequence tag ch mark =>
    intro v hs hc
    simp only [simpleN, Bool.and_eq_true, beq_iff_eq] at hs
    obtain ⟨rfl, hs⟩ := hs
    rw [constructObject_seq] at hc
    cases hcl : constructList ch with
    | ok xs =>
      rw [hcl] at hc
      simp only at hc
      injection hc with hc
      have := shapeL ch xs hs hcl
      rw [← hc, this]
      rfl
    | error e => rw [hcl] at hc; exact Except.noConfusion hc
  | .mapping tag ps mark =>
    intro v hs hc
    simp only [simpleN, Bool.and_eq_true, beq_iff_eq] at hs
    obtain ⟨rfl, hs⟩ := hs
    rw [constructObject_map] at hc
    cases hcp : constructPairs mark ps .nil with
    | ok d =>
      rw [hcp] at hc
      simp only at hc
      injection hc with hc
      have := shapeP mark ps .nil d hs hcp
      rw [← hc, this]
      rfl
    | error e => rw [hcp] at hc; exact Except.noConfusion hc
theorem shapeL : ∀ l xs, simpleL l = true → constructList l = .ok xs → xs = objOfL l := by
  intro l
  match l with
  | .nil =>
    intro xs _ hc
    injection hc with hc
    exact hc.symm
  | .cons n r =>
    intro xs hs hc
    simp only [simpleL, Bool.and_eq_true] at hs
    simp only [constructList] at hc
    cases hcn : constructObject n with
    | error e => rw [hcn] at hc; exact Except.noConfusion hc
    | ok v =>
      rw [hcn] at hc
      simp only at hc
      cases hcr : constructList r with
      | error e => rw [hcr] at hc; exact Except.noConfusion hc
      | ok vs =>
        rw [hcr] at hc
        simp only at hc
        injection hc with hc
        rw [← hc, shapeN n v hs.1 hcn, shapeL r vs hs.2 hcr]
        rfl
theorem shapeP : ∀ (mark : Mark) (ps : NodePairs) (acc res : ObjDict),
    simpleP ps = true → constructPairs mark ps acc = .ok res →
    res = acc.append (objOfP ps) := by
  intro mark ps acc
  match ps with
  | .nil =>
    intro res _ hc
    injection hc with hc
    rw [← hc]
    exact (append_nil_d acc).symm
  | .cons kn vn r =>
    intro res hs hc
    simp only [simpleP, Bool.and_eq_true] at hs
    obtain ⟨⟨⟨hsc, hkn⟩, hvn⟩, hr⟩ := hs
    match kn, hsc, hkn with
    | .scalar t v m, _, hkn =>
      have hkn2 : (constructScalarValue t v m).isOk = true := by simpa [simpleN] using hkn
      obtain ⟨k, hk⟩ := isOk_exists hkn2
      have hco : constructObject (Node.scalar t v m) = .ok k := by
        rw [constructObject_scalar hkn2, hk]
      rw [constructPairs_cons_ok hco (csv_hashable hk)] at hc
      cases hck : containsKey acc k with
      | true => rw [hck] at hc; simp at hc
      | false =>
        rw [hck] at hc
        simp only [if_false, Bool.false_eq_true] at hc
        cases hcv : constructObject vn with
        | error e => rw [hcv] at hc; exact Except.noConfusion hc
        | ok v2 =>
          rw [hcv] at hc
          simp only at hc
          have ih := shapeP mark r (acc.snoc k v2) res hr hc
          rw [ih, shapeN vn v2 hvn hcv, snoc_append]
          simp [objOfP, objOfN_scalar hk]
end

mutual
theorem compN : ∀ n v, simpleN n = true → constructObject n = .ok v → noDupN n = true := by
  intro n
  match n with
  | .scalar tag v0 mark => intro v _ _; rfl
  | .sequence tag ch mark =>
    intro v hs hc
    simp only [simpleN, Bool.and_eq_true, beq_iff_eq] at hs
    obtain ⟨rfl, hs⟩ := hs
    rw [constructObject_seq] at hc
    cases hcl : constructList ch with
    | ok xs =>
      have := compL ch xs hs hcl
      simp [noDupN, this]
    | error e => rw [hcl] at hc; exact Except.noConfusion hc
  | .mapping tag ps mark =>
    intro v hs hc
    simp only [simpleN, Bool.and_eq_true, beq_iff_eq] at hs
    obtain ⟨rfl, hs⟩ := hs
    rw [constructObject_map] at hc
    cases hcp : constructPairs mark ps .nil with
    | ok d =>
      obtain ⟨h1, h2, _⟩ := compP mark ps .nil d hs hcp
      simp [noDupN, h1, h2]
    | error e => rw [hcp] at hc; exact Except.noConfusion hc
theorem compL : ∀ l xs, simpleL l = true → constructList l = .ok xs → noDupL l = true := by
  intro l
  match l with
  | .nil => intro xs _ _; rfl
  | .cons n r =>
    intro xs hs hc
    simp only [simpleL, Bool.and_eq_true] at hs
    simp only [constructList] at hc
    cases hcn : constructObject n with
    | error e => rw [hcn] at hc; exact Except.noConfusion hc
    | ok v =>
      rw [hcn] at hc
      simp only at hc
      cases hcr : constructList r with
      | error e => rw [hcr] at hc; exact Except.noConfusion hc
      | ok vs =>
        have h1 := compN n v hs.1 hcn
        have h2 := compL r vs hs.2 hcr
        simp [noDupL, h1, h2]
theorem compP : ∀ (mark : Mark) (ps : NodePairs) (acc res : ObjDict),
    simpleP ps = true → constructPairs mark ps acc = .ok res →
    keysDistinct ps = true ∧ noDupP ps = true ∧ freshKeys acc ps = true := by
  intro mark ps acc
  match ps with
  | .nil => intro res _ _; exact ⟨rfl, rfl, rfl⟩
  | .cons kn vn r =>
    intro res hs hc
    simp only [simpleP, Bool.and_eq_true] at hs
    obtain ⟨⟨⟨hsc, hkn⟩, hvn⟩, hr⟩ := hs
    match kn, hsc, hkn with
    | .scalar t v m, _, hkn =>
      have hkn2 : (constructScalarValue t v m).isOk = true := by simpa [simpleN] using hkn
      obtain ⟨k, hk⟩ := isOk_exists hkn2
      have hco : constructObject (Node.scalar t v m) = .ok k := by
        rw [constructObject_scalar hkn2, hk]
      rw [constructPairs_cons_ok hco (csv_hashable hk)] at hc
      cases hck : containsKey acc k with
      | true => rw [hck] at hc; simp at hc
      | false =>
        rw [hck] at hc
        simp only [if_false, Bool.false_eq_true] at hc
        cases hcv : constructObject vn with
        | error e => rw [hcv] at hc; exact Except.noConfusion hc
        | ok v2 =>
          rw [hcv] at hc
          simp only at hc
          obtain ⟨ihd, ihn, ihf⟩ := compP mark r (acc.snoc k v2) res hr hc
          obtain ⟨hfr, hkN⟩ := freshKeys_unsnoc ihf
          refine ⟨?_, ?_, ?_⟩
          · rw [keysDistinct_cons_ok vn r hco]
            simp [hkN, ihd]
          · have hnv := compN vn v2 hvn hcv
            simp [noDupP, noDupN, hnv, ihn]
          · rw [freshKeys_cons_ok acc vn r hco]
            simp [hck, hfr]
end

theorem constructObject_not_ok {tag : String} {mark : Mark} {v : Obj}
    (h1 : ¬ (tag = mapTag)) (h2 : ¬ (tag = seqTag)) :
    ∀ (ch : NodeList), constructObject (.sequence tag ch mark) = .ok v → False := by
  intro ch hc
  simp only [constructObject, if_neg h1, if_neg h2] at hc
  split at hc <;> exact Except.noConfusion hc

theorem constructObject_not_ok_map {tag : String} {mark : Mark} {v : Obj}
    (h1 : ¬ (tag = mapTag)) :
    ∀ (ps : NodePairs), constructObject (.mapping tag ps mark) = .ok v → False := by
  intro ps hc
  by_cases h2 : tag = seqTag
  · subst h2; simp [constructObject, h1] at hc
  simp only [constructObject, if_neg h1, if_neg h2] at hc
  split at hc <;> exact Except.noConfusion hc

mutual
theorem uniqN : ∀ n v, constructObject n = .ok v → uniqKeysO v = true := by
  intro n
  match n with
  | .scalar tag v0 mark =>
    intro v hc
    exact csv_uniq (constructObject_scalar_ok hc)
  | .sequence tag ch mark =>
    intro v hc
    by_cases h1 : tag = mapTag
    · subst h1; simp [constructObject] at hc
    by_cases h2 : tag = seqTag
    · subst h2
      rw [constructObject_seq] at hc
      cases hcl : constructList ch with
      | ok xs =>
        rw [hcl] at hc
        simp only at hc
        injection hc with hc
        rw [← hc]
        simpa [uniqKeysO] using uniqL ch xs hcl
      | error e => rw [hcl] at hc; exact Except.noConfusion hc
    · exact absurd hc (fun hc => constructObject_not_ok h1 h2 ch hc)
  | .mapping tag ps mark =>
    intro v hc
    by_cases h1 : tag = mapTag
    · subst h1
      rw [constructObject_map] at hc
      cases hcp : constructPairs mark ps .nil with
      | ok d =>
        rw [hcp] at hc
        simp only at hc
        injection hc with hc
        obtain ⟨hd1, hd2⟩ := uniqP mark ps .nil d hcp rfl rfl
        rw [← hc]
        simp [uniqKeysO, hd1, hd2]
      | error e => rw [hcp] at hc; exact Except.noConfusion hc
    · exact absurd hc (fun hc => constructObject_not_ok_map h1 ps hc)
theorem uniqL : ∀ l xs, constructList l = .ok xs → uniqKeysOL xs = true := by
  intro l
  match l with
  | .nil =>
    intro xs hc
    injection hc with hc
    rw [← hc]
    rfl
  | .cons n r =>
    intro xs hc
    simp only [constructList] at hc
    cases hcn : constructObject n with
    | error e => rw [hcn] at hc; exact Except.noConfusion hc
    | ok v =>
      rw [hcn] at hc
      simp only at hc
      cases hcr : constructList r with
      | error e => rw [hcr] at hc; exact Except.noConfusion hc
      | ok vs =>
        rw [hcr] at hc
        simp only at hc
        injection hc with hc
        rw [← hc]
        have h1 := uniqN n v hcn
        have h2 := uniqL r vs hcr
        simp [uniqKeysOL, h1, h2]
theorem uniqP : ∀ (mark : Mark) (ps : NodePairs) (acc res : ObjDict),
    constructPairs mark ps acc = .ok res →
    distinctD acc = true → uniqKeysOD acc = true →
    distinctD res = true ∧ uniqKeysOD res = true := by
  intro mark ps acc
  match ps with
  | .nil =>
    intro res hc hda hua
    injection hc with hc
    rw [← hc]
    exact ⟨hda, hua⟩
  | .cons kn vn r =>
    intro res hc hda hua
    simp only [constructPairs] at hc
    cases hck : constructObject kn with
    | error e => rw [hck] at hc; exact Except.noConfusion hc
    | ok k =>
      rw [hck] at hc
      simp only at hc
      cases hh : k.hashable with
      | false => rw [hh] at hc; simp at hc
      | true =>
        rw [hh] at hc
        simp only [if_true] at hc
        cases hck2 : containsKey acc k with
        | true => rw [hck2] at hc; simp at hc
        | false =>
          rw [hck2] at hc
          simp only [if_false, Bool.false_eq_true] at hc
          cases hcv : constructObject vn with
          | error e => rw [hcv] at hc; exact Except.noConfusion hc
          | ok v2 =>
            rw [hcv] at hc
            simp only at hc
            have hda2 : distinctD (acc.snoc k v2) = true := by
              rw [distinctD_snoc]
              simp [hda, hck2]
            have hua2 : uniqKeysOD (acc.snoc k v2) = true := by
              rw [uniqKeysOD_snoc]
              simp [hua, uniqN kn k hck, uniqN vn v2 hcv]
            exact uniqP mark r (acc.snoc k v2) res hc hda2 hua2
end

mutual
theorem matchN : ∀ n v, constructObject n = .ok v → nodeMatches n v := by
  intro n
  match n with
  | .scalar tag v0 mark =>
    intro v hc
    simpa [nodeMatches] using constructObject_scalar_ok hc
  | .sequence tag ch mark =>
    intro v hc
    by_cases h1 : tag = mapTag
    · subst h1; simp [constructObject] at hc
    by_cases h2 : tag = seqTag
    · subst h2
      rw [constructObject_seq] at hc
      cases hcl : constructList ch with
      | ok xs =>
        rw [hcl] at hc
        simp only at hc
        injection hc with hc
        rw [← hc]
        simpa [nodeMatches] using matchL ch xs hcl
      | error e => rw [hcl] at hc; exact Except.noConfusion hc
    · exact absurd hc (fun hc => constructObject_not_ok h1 h2 ch hc)
  | .mapping tag ps mark =>
    intro v hc
    by_cases h1 : tag = mapTag
    · subst h1
      rw [constructObject_map] at hc
      cases hcp : constructPairs mark ps .nil with
      | ok d =>
        rw [hcp] at hc
        simp only at hc
        injection hc with hc
        obtain ⟨t, ht, hm⟩ := matchP mark ps .nil d hcp
        rw [← hc]
        have ht2 : d = t := by simpa [ObjDict.append] using ht
        subst ht2
        simpa [nodeMatches] using hm
      | error e => rw [hcp] at hc; exact Except.noConfusion hc
    · exact absurd hc (fun hc => constructObject_not_ok_map h1 ps hc)
theorem matchL : ∀ l xs, constructList l = .ok xs → listMatches l xs := by
  intro l
  match l with
  | .nil =>
    intro xs hc
    injection hc with hc
    rw [← hc]
    simp [listMatches]
  | .cons n r =>
    intro xs hc
    simp only [constructList] at hc
    cases hcn : constructObject n with
    | error e => rw [hcn] at hc; exact Except.noConfusion hc
    | ok v =>
      rw [hcn] at hc
      simp only at hc
      cases hcr : constructList r with
      | error e => rw [hcr] at hc; exact Except.noConfusion hc
      | ok vs =>
        rw [hcr] at hc
        simp only at hc
        injection hc with hc
        rw [← hc]
        exact ⟨matchN n v hcn, matchL r vs hcr⟩
theorem matchP : ∀ (mark : Mark) (ps : NodePairs) (acc res : ObjDict),
    constructPairs mark ps acc = .ok res →
    ∃ t, res = acc.append t ∧ pairsMatchP ps t := by
  intro mark ps acc
  match ps with
  | .nil =>
    intro res hc
    injection hc with hc
    exact ⟨.nil, by rw [← hc, append_nil_d], by simp [pairsMatchP]⟩
  | .cons kn vn r =>
    intro res hc
    simp only [constructPairs] at hc
    cases hck : constructObject kn with
    | error e => rw [hck] at hc; exact Except.noConfusion hc
    | ok k =>
      rw [hck] at hc
      simp only at hc
      cases hh : k.hashable with
      | false => rw [hh] at hc; simp at hc
      | true =>
        rw [hh] at hc
        simp only [if_true] at hc
        cases hck2 : containsKey acc k with
        | true => rw [hck2] at hc; simp at hc
        | false =>
          rw [hck2] at hc
          simp only [if_false, Bool.false_eq_true] at hc
          cases hcv : constructObject vn with
          | error e => rw [hcv] at hc; exact Except.noConfusion hc
          | ok v2 =>
            rw [hcv] at hc
            simp only at hc
            obtain ⟨t, ht, hm⟩ := matchP mark r (acc.snoc k v2) res hc
            refine ⟨.cons k v2 t, ?_, ?_⟩
            · rw [ht, snoc_append]
            · exact ⟨matchN kn k hck, matchN vn v2 hcv, hm⟩
end

mutual
theorem errN : ∀ n e, simpleN n = true → constructObject n = .error e →
    ∃ s, e = dupKeyErr s ∧ dupLitN n s = true := by
  intro n
  match n with
  | .scalar tag v0 mark =>
    intro e hs hc
    have hs2 : (constructScalarValue tag v0 mark).isOk = true := by simpa [simpleN] using hs
    obtain ⟨o, ho⟩ := isOk_exists hs2
    rw [constructObject_scalar hs2, ho] at hc
    exact Except.noConfusion hc
  | .sequence tag ch mark =>
    intro e hs hc
    simp only [simpleN, Bool.and_eq_true, beq_iff_eq] at hs
    obtain ⟨rfl, hs⟩ := hs
    rw [constructObject_seq] at hc
    cases hcl : constructList ch with
    | ok xs => rw [hcl] at hc; exact Except.noConfusion hc
    | error e2 =>
      rw [hcl] at hc
      simp only at hc
      injection hc with hc
      obtain ⟨s, he, hd⟩ := errL ch e2 hs hcl
      exact ⟨s, by rw [← hc, he], by simpa [dupLitN] using hd⟩
  | .mapping tag ps mark =>
    intro e hs hc
    simp only [simpleN, Bool.and_eq_true, beq_iff_eq] at hs
    obtain ⟨rfl, hs⟩ := hs
    rw [constructObject_map] at hc
    cases hcp : constructPairs mark ps .nil with
    | ok d => rw [hcp] at hc; exact Except.noConfusion hc
    | error e2 =>
      rw [hcp] at hc
      simp only at hc
      injection hc with hc
      obtain ⟨s, he, hd⟩ := errP mark ps .nil e2 hs hcp
      exact ⟨s, by rw [← hc, he], by simpa [dupLitN] using hd⟩
theorem errL : ∀ l e, simpleL l = true → constructList l = .error e →
    ∃ s, e = dupKeyErr s ∧ dupLitL l s = true := by
  intro l
  match l with
  | .nil => intro e _ hc; exact Except.noConfusion hc
  | .cons n r =>
    intro e hs hc
    simp only [simpleL, Bool.and_eq_true] at hs
    simp only [constructList] at hc
    cases hcn : constructObject n with
    | error e2 =>
      rw [hcn] at hc
      simp only at hc
      injection hc with hc
      obtain ⟨s, he, hd⟩ := errN n e2 hs.1 hcn
      exact ⟨s, by rw [← hc, he], by simp [dupLitL, hd]⟩
    | ok v =>
      rw [hcn] at hc
      simp only at hc
      cases hcr : constructList r with
      | ok vs => rw [hcr] at hc; exact Except.noConfusion hc
      | error e2 =>
        rw [hcr] at hc
        simp only at hc
        injection hc with hc
        obtain ⟨s, he, hd⟩ := errL r e2 hs.2 hcr
        exact ⟨s, by rw [← hc, he], by simp [dupLitL, hd]⟩
theorem errP : ∀ (mark : Mark) (ps : NodePairs) (acc : ObjDict) e,
    simpleP ps = true → constructPairs mark ps acc = .error e →
    ∃ s, e = dupKeyErr s ∧ dupLitFrom acc ps s = true := by
  intro mark ps acc
  match ps with
  | .nil => intro e _ hc; exact Except.noConfusion hc
  | .cons kn vn r =>
    intro e hs hc
    simp only [simpleP, Bool.and_eq_true] at hs
    obtain ⟨⟨⟨hsc, hkn⟩, hvn⟩, hr⟩ := hs
    match kn, hsc, hkn with
    | .scalar t v m, _, hkn =>
      have hkn2 : (constructScalarValue t v m).isOk = true := by simpa [simpleN] using hkn
      obtain ⟨k, hk⟩ := isOk_exists hkn2
      have hco : constructObject (Node.scalar t v m) = .ok k := by
        rw [constructObject_scalar hkn2, hk]
      rw [constructPairs_cons_ok hco (csv_hashable hk)] at hc
      cases hck : containsKey acc k with
      | true =>
        rw [hck] at hc
        simp only [if_true] at hc
        injection hc with hc
        refine ⟨(Node.scalar t v m).valueText, hc.symm, ?_⟩
        rw [dupLitFrom_cons_ok acc vn r _ hco]
        simp [hck]
      | false =>
        rw [hck] at hc
        simp only [if_false, Bool.false_eq_true] at hc
        cases hcv : constructObject vn with
        | error e2 =>
          rw [hcv] at hc
          simp only at hc
          injection hc with hc
          obtain ⟨s, he, hd⟩ := errN vn e2 hvn hcv
          refine ⟨s, by rw [← hc, he], ?_⟩
          rw [dupLitFrom_cons_ok acc vn r s hco]
          simp [hd]
        | ok v2 =>
          rw [hcv] at hc
          simp only at hc
          have hv2 : v2 = objOfN vn := shapeN vn v2 hvn hcv
          rw [hv2] at hc
          obtain ⟨s, he, hd⟩ := errP mark r (acc.snoc k (objOfN vn)) e hr hc
          refine ⟨s, he, ?_⟩
          rw [dupLitFrom_cons_ok acc vn r s hco]
          simp [hd]
end

theorem keyTextIn_keyNotIn : ∀ (kn : Node) (r : NodePairs) (k : Obj),
    simpleP r = true → keyTextIn kn r = true → constructObject kn = .ok k →
    keyNotIn k r = false := by
  intro kn r
  match r with
  | .nil => intro k _ ht _; exact absurd ht (by simp [keyTextIn])
  | .cons kn2 vn2 rest =>
    intro k hs ht hc
    simp only [simpleP, Bool.and_eq_true] at hs
    obtain ⟨⟨⟨hsc2, hkn2⟩, _⟩, hrest⟩ := hs
    simp only [keyTextIn, Bool.or_eq_true] at ht
    rcases ht with heq | ht
    · match kn, kn2, heq with
      | .scalar t1 v1 m1, .scalar t2 v2 m2, heq =>
        simp only [scalarNodeEq, Bool.and_eq_true, beq_iff_eq] at heq
        obtain ⟨rfl, rfl⟩ := heq
        have hc2 := constructObject_scalar_ok hc
        have hc3 : constructObject (Node.scalar t1 v1 m2) = .ok k := by
          have hm := csv_mark_irrel hc2 m2
          have hok : (constructScalarValue t1 v1 m2).isOk = true := by rw [hm]; rfl
          rw [constructObject_scalar hok, hm]
        rw [keyNotIn_cons_ok vn2 rest k hc3]
        have hrefl : pyEq k k = true := csv_pyEq_refl hc2
        simp [hrefl]
    · have ih := keyTextIn_keyNotIn kn rest k hrest ht hc
      cases hck2 : constructObject kn2 with
      | ok k2 =>
        rw [keyNotIn_cons_ok vn2 rest k hck2, ih]
        simp
      | error e =>
        rw [keyNotIn_cons_err vn2 rest k hck2]
        exact ih

mutual
theorem textN : ∀ n, simpleN n = true → textualDupN n = true → noDupN n = false := by
  intro n
  match n with
  | .scalar tag v0 mark => intro _ ht; exact absurd ht (by simp [textualDupN])
  | .sequence tag ch mark =>
    intro hs ht
    simp only [simpleN, Bool.and_eq_true, beq_iff_eq] at hs
    have ht2 : textualDupL ch = true := by simpa [textualDupN] using ht
    have := textL ch hs.2 ht2
    simpa [noDupN] using this
  | .mapping tag ps mark =>
    intro hs ht
    simp only [simpleN, Bool.and_eq_true, beq_iff_eq] at hs
    have ht2 : textualDupP ps = true := by simpa [textualDupN] using ht
    have := textP ps hs.2 ht2
    simpa [noDupN] using this
theorem textL : ∀ l, simpleL l = true → textualDupL l = true → noDupL l = false := by
  intro l
  match l with
  | .nil => intro _ ht; exact absurd ht (by simp [textualDupL])
  | .cons n r =>
    intro hs ht
    simp only [simpleL, Bool.and_eq_true] at hs
    simp only [textualDupL, Bool.or_eq_true] at ht
    rcases ht with ht | ht
    · have := textN n hs.1 ht
      simp [noDupL, this]
    · have := textL r hs.2 ht
      simp [noDupL, this]
theorem textP : ∀ ps, simpleP ps = true → textualDupP ps = true →
    (keysDistinct ps && noDupP ps) = false := by
  intro ps
  match ps with
  | .nil => intro _ ht; exact absurd ht (by simp [textualDupP])
  | .cons kn vn r =>
    intro hs ht
    simp only [simpleP, Bool.and_eq_true] at hs
    obtain ⟨⟨⟨hsc, hkn⟩, hvn⟩, hr⟩ := hs
    match kn, hsc, hkn, ht with
    | .scalar t v m, _, hkn, ht =>
      have hkn2 : (constructScalarValue t v m).isOk = true := by simpa [simpleN] using hkn
      obtain ⟨k, hk⟩ := isOk_exists hkn2
      have hco : constructObject (Node.scalar t v m) = .ok k := by
        rw [constructObject_scalar hkn2, hk]
      simp only [textualDupP, Bool.or_eq_true] at ht
      rcases ht with (ht | ht) | ht
      · have hni := keyTextIn_keyNotIn (Node.scalar t v m) r k hr ht hco
        rw [keysDistinct_cons_ok vn r hco, hni]
        simp
      · have := textN vn hvn ht
        simp [noDupP, this]
      · have ih := textP r hr ht
        rw [keysDistinct_cons_ok vn r hco]
        simp only [noDupP]
        rcases Bool.and_eq_false_iff.mp ih with h | h
        · simp [h]
        · simp [h]
end

theorem strAppend_assoc (a b c : String) : a ++ b ++ c = a ++ (b ++ c) := by
  cases a with
  | mk l1 =>
    cases b with
    | mk l2 =>
      cases c with
      | mk l3 =>
        show String.mk ((l1 ++ l2) ++ l3) = String.mk (l1 ++ (l2 ++ l3))
        rw [List.append_assoc]

theorem dup_msg_eq (s : String) :
    "Failed to load workflow definition because " ++ ("found duplicate key \"" ++ s ++ "\"") ++ "." =
      "Failed to load workflow definition because found duplicate key \"" ++ s ++ "\"." := by
  simp only [strAppend_assoc]
  rw [← strAppend_assoc "Failed to load workflow definition because "
    "found duplicate key \"" (s ++ ("\"" ++ "."))]
  rfl

theorem constructPairs_append : ∀ (mark : Mark) (a b : NodePairs) (acc : ObjDict),
    constructPairs mark (a.append b) acc =
      (match constructPairs mark a acc with
       | .ok res => constructPairs mark b res
       | .error e => .error e) := by
  intro mark a
  match a with
  | .nil => intro b acc; rfl
  | .cons kn vn r =>
    intro b acc
    simp only [NodePairs.append, constructPairs]
    cases hck : constructObject kn with
    | error e => simp
    | ok k =>
      simp only
      cases hh : k.hashable with
      | false => simp [hh]
      | true =>
        simp only [hh, if_true]
        cases hck2 : containsKey acc k with
        | true => simp
        | false =>
          simp only [Bool.false_eq_true, if_false]
          cases hcv : constructObject vn with
          | error e => simp
          | ok v2 =>
            simp only
            exact constructPairs_append mark r b (acc.snoc k v2)

/-- C1: whenever `safe_load` fails, for any reason (a parse-stage failure or
any constructor error, including the duplicate-key, unhashable-key and
non-mapping checks), the single normalized error message is exactly
`Failed to load workflow definition because <original message>.`, i.e. the
fixed prefix followed by the underlying error message and a final period. -/
theorem C1_safe_load_normalizes_errors :
    ∀ (parsed : Except String (Option Node)) (m : String),
    safe_load parsed = .error m →
    ∃ orig, underlyingErr parsed = some orig ∧
      m = "Failed to load workflow definition because " ++ orig ++ "." := by
  intro parsed m h
  simp only [safe_load] at h
  cases hy : yaml_load parsed with
  | ok v => rw [hy] at h; exact Except.noConfusion h
  | error e =>
    rw [hy] at h
    simp only at h
    injection h with h
    exact ⟨e, by simp [underlyingErr, hy], h.symm⟩

/-- Witness for C1 at a concrete failing input (a parse-stage error with
message `x`). -/
theorem C1_witness :
    ∃ orig, underlyingErr (.error "x") = some orig ∧
      "Failed to load workflow definition because x." =
        "Failed to load workflow definition because " ++ orig ++ "." :=
  C1_safe_load_normalizes_errors (.error "x")
    "Failed to load workflow definition because x." rfl

/-- C3: for any simple document (core scalar tags, canonical sequence and
mapping tags, scalar mapping keys) with no duplicate mapping keys at any
nesting level, `safe_load` succeeds and returns exactly the reference
structure of the document: the same mapping keys at every nesting level, in
order, with the same nested values. -/
theorem C3_no_duplicates_success :
    ∀ n : Node, simpleN n = true → noDupN n = true →
    safe_load (.ok (some n)) = .ok (objOfN n) := by
  intro n hs hd
  simp [safe_load, yaml_load, okN n hs hd]

/-- Witness for C3 at the concrete document `a: (b: 1), c: (2, true)`. -/
theorem C3_witness :
    safe_load (.ok (some (.mapping mapTag
      (.cons (.scalar strTag "a" ⟨0, 0⟩)
        (.mapping mapTag (.cons (.scalar strTag "b" ⟨1, 2⟩) (.scalar intTag "1" ⟨1, 5⟩) .nil) ⟨1, 2⟩)
        (.cons (.scalar strTag "c" ⟨2, 0⟩)
          (.sequence seqTag (.cons (.scalar intTag "2" ⟨2, 4⟩)
            (.cons (.scalar boolTag "true" ⟨2, 7⟩) .nil)) ⟨2, 3⟩)
          .nil)) ⟨0, 0⟩))) =
    .ok (objOfN (.mapping mapTag
      (.cons (.scalar strTag "a" ⟨0, 0⟩)
        (.mapping mapTag (.cons (.scalar strTag "b" ⟨1, 2⟩) (.scalar intTag "1" ⟨1, 5⟩) .nil) ⟨1, 2⟩)
        (.cons (.scalar strTag "c" ⟨2, 0⟩)
          (.sequence seqTag (.cons (.scalar intTag "2" ⟨2, 4⟩)
            (.cons (.scalar boolTag "true" ⟨2, 7⟩) .nil)) ⟨2, 3⟩)
          .nil)) ⟨0, 0⟩)) :=
  C3_no_duplicates_success _ rfl rfl

/-- C8: a document whose mapping keys construct to hashable non-string
scalars (numbers, booleans), unique within each mapping, is accepted by
`safe_load`: keys are not restricted to strings. -/
theorem C8_non_string_keys_accepted :
    ∀ n : Node, simpleN n = true → noDupN n = true → keysNonStrN n = true →
    ∃ v, safe_load (.ok (some n)) = .ok v := by
  intro n hs hd _
  exact ⟨objOfN n, by simp [safe_load, yaml_load, okN n hs hd]⟩

/-- Witness for C8 at the concrete document `3: a, true: b` whose keys are an
integer and a boolean. -/
theorem C8_witness :
    ∃ v, safe_load (.ok (some (.mapping mapTag
      (.cons (.scalar intTag "3" ⟨0, 0⟩) (.scalar strTag "a" ⟨0, 3⟩)
        (.cons (.scalar boolTag "true" ⟨1, 0⟩) (.scalar strTag "b" ⟨1, 6⟩) .nil)) ⟨0, 0⟩))) =
      .ok v :=
  C8_non_string_keys_accepted _ rfl rfl rfl

/-- C9: duplicate detection compares resolved key values, not spellings: the
document with integer keys spelled `1` and `0x1` fails with a duplicate-key
error, as does the one with boolean keys spelled `true` and `True`, and in
both cases the message carries the literal text of the second occurrence. -/
theorem C9_value_based_duplicates :
    safe_load (.ok (some (.mapping mapTag
      (.cons (.scalar intTag "1" ⟨0, 0⟩) (.scalar strTag "x" ⟨0, 3⟩)
        (.cons (.scalar intTag "0x1" ⟨1, 0⟩) (.scalar strTag "y" ⟨1, 5⟩) .nil)) ⟨0, 0⟩))) =
      .error "Failed to load workflow definition because found duplicate key \"0x1\"." ∧
    safe_load (.ok (some (.mapping mapTag
      (.cons (.scalar boolTag "true" ⟨0, 0⟩) (.scalar strTag "x" ⟨0, 6⟩)
        (.cons (.scalar boolTag "True" ⟨1, 0⟩) (.scalar strTag "y" ⟨1, 6⟩) .nil)) ⟨0, 0⟩))) =
      .error "Failed to load workflow definition because found duplicate key \"True\"." :=
  ⟨rfl, rfl⟩

/-- C10: the empty document (no composed node) loads successfully and
`safe_load` returns the null value rather than failing. -/
theorem C10_empty_document_null : safe_load (.ok none) = .ok .null := rfl

/-- C2: a simple document containing two textually identical keys in one
mapping, at any nesting depth, fails to load, and the error message contains
the word `duplicate` together with the literal text of a key that duplicates
an earlier key of its mapping; the full message is
`Failed to load workflow definition because found duplicate key "<text>".`. -/
theorem C2_duplicate_key_fails :
    ∀ n : Node, simpleN n = true → textualDupN n = true →
    ∃ m s, safe_load (.ok (some n)) = .error m ∧ dupLitN n s = true ∧
      strContains m "duplicate" = true ∧ strContains m s = true ∧
      m = "Failed to load workflow definition because found duplicate key \"" ++ s ++ "\"." := by
  intro n hs ht
  cases hc : constructObject n with
  | ok v =>
    have hnd := compN n v hs hc
    have hf := textN n hs ht
    rw [hnd] at hf
    exact Bool.noConfusion hf
  | error e =>
    obtain ⟨s, he, hd⟩ := errN n e hs hc
    subst he
    have hstr : (dupKeyErr s).str = "found duplicate key \"" ++ s ++ "\"" := by
      simp [dupKeyErr, PyErr.str, joinLines]
    have hsl : safe_load (.ok (some n)) =
        .error ("Failed to load workflow definition because " ++
          ("found duplicate key \"" ++ s ++ "\"") ++ ".") := by
      simp [safe_load, yaml_load, hc, hstr]
    refine ⟨_, s, ?_, hd, ?_, ?_, rfl⟩
    · rw [hsl, dup_msg_eq]
    · have h0 : strContains "Failed to load workflow definition because found duplicate key \""
          "duplicate" = true := by decide
      have h1 := strContains_append_left
        "Failed to load workflow definition because found duplicate key \"" s "duplicate" h0
      exact strContains_append_left _ "\"." _ h1
    · have h1 := strContains_append_right
        "Failed to load workflow definition because found duplicate key \"" s s
        (strContains_self s)
      exact strContains_append_left _ "\"." _ h1

/-- Witness for C2 at the concrete document `a: 1, a: 2`. -/
theorem C2_witness :
    ∃ m s, safe_load (.ok (some (.mapping mapTag
        (.cons (.scalar strTag "a" ⟨0, 0⟩) (.scalar intTag "1" ⟨0, 3⟩)
          (.cons (.scalar strTag "a" ⟨1, 0⟩) (.scalar intTag "2" ⟨1, 3⟩) .nil)) ⟨0, 0⟩))) =
        .error m ∧
      dupLitN (.mapping mapTag
        (.cons (.scalar strTag "a" ⟨0, 0⟩) (.scalar intTag "1" ⟨0, 3⟩)
          (.cons (.scalar strTag "a" ⟨1, 0⟩) (.scalar intTag "2" ⟨1, 3⟩) .nil)) ⟨0, 0⟩) s = true ∧
      strContains m "duplicate" = true ∧ strContains m s = true ∧
      m = "Failed to load workflow definition because found duplicate key \"" ++ s ++ "\"." :=
  C2_duplicate_key_fails _ rfl rfl

/-- C7: whatever `safe_load` returns on a successful parse of a document
corresponds to the document structurally: every mapping in the result lists
exactly the constructed keys of the document pairs, in document order, and
every nested dict has pairwise unequal keys, so uniqueness is enforced rather
than merged away. -/
theorem C7_order_and_uniqueness :
    ∀ (n : Node) (v : Obj), safe_load (.ok (some n)) = .ok v →
    uniqKeysO v = true ∧ nodeMatches n v := by
  intro n v h
  cases hc : constructObject n with
  | error e =>
    have : safe_load (.ok (some n)) = .error
        ("Failed to load workflow definition because " ++ e.str ++ ".") := by
      simp [safe_load, yaml_load, hc]
    rw [this] at h
    exact Except.noConfusion h
  | ok v2 =>
    have hv : safe_load (.ok (some n)) = .ok v2 := by
      simp [safe_load, yaml_load, hc]
    rw [hv] at h
    injection h with h
    subst h
    exact ⟨uniqN n v2 hc, matchN n v2 hc⟩

/-- Witness for C7 at the concrete document `b: 2, a: 1` (result keys stay in
document order and are unique). -/
theorem C7_witness :
    uniqKeysO (.dict (.cons (.str "b") (.int 2) (.cons (.str "a") (.int 1) .nil))) = true ∧
    nodeMatches (.mapping mapTag
      (.cons (.scalar strTag "b" ⟨0, 0⟩) (.scalar intTag "2" ⟨0, 3⟩)
        (.cons (.scalar strTag "a" ⟨1, 0⟩) (.scalar intTag "1" ⟨1, 3⟩) .nil)) ⟨0, 0⟩)
      (.dict (.cons (.str "b") (.int 2) (.cons (.str "a") (.int 1) .nil))) :=
  C7_order_and_uniqueness _ _ rfl

/-- C4: when a mapping key constructs to an unhashable value (a list or a
dict) and the pairs before it construct cleanly, `safe_load` fails and the
message describes the unacceptable key, naming its unhashable type. -/
theorem C4_unhashable_key_fails :
    ∀ (mark : Mark) (pre : NodePairs) (kn vn : Node) (post : NodePairs)
      (acc : ObjDict) (k : Obj),
    constructPairs mark pre .nil = .ok acc →
    constructObject kn = .ok k →
    k.hashable = false →
    ∃ m, safe_load (.ok (some (.mapping mapTag (pre.append (.cons kn vn post)) mark))) =
        .error m ∧
      strContains m ("found unacceptable key (unhashable type: " ++ quoteCh ++
        k.typeName ++ quoteCh ++ ")") = true := by
  intro mark pre kn vn post acc k hpre hco hh
  have hcp : constructPairs mark (pre.append (.cons kn vn post)) .nil =
      .error (unacceptableKeyErr mark k kn.start_mark) := by
    rw [constructPairs_append, hpre]
    simp [constructPairs, hco, hh]
  have hobj : constructObject (.mapping mapTag (pre.append (.cons kn vn post)) mark) =
      .error (unacceptableKeyErr mark k kn.start_mark) := by
    rw [constructObject_map, hcp]
  have hp : strContains ((unacceptableKeyErr mark k kn.start_mark).str)
      ("found unacceptable key (unhashable type: " ++ quoteCh ++
        k.typeName ++ quoteCh ++ ")") = true := by
    simp only [unacceptableKeyErr, PyErr.str]
    cases hb : (mark.line == kn.start_mark.line && mark.column == kn.start_mark.column) with
    | true =>
      simp only [if_true]
      apply strContains_joinLines
      simp
    | false =>
      simp only [Bool.false_eq_true, if_false]
      apply strContains_joinLines
      simp
  refine ⟨"Failed to load workflow definition because " ++
      (unacceptableKeyErr mark k kn.start_mark).str ++ ".", ?_, ?_⟩
  · simp [safe_load, yaml_load, hobj]
  · exact strContains_append_left _ "." _
      (strContains_append_right "Failed to load workflow definition because " _ _ hp)

/-- Witness for C4 at the concrete document whose single key is the sequence
`(1)`. -/
theorem C4_witness :
    ∃ m, safe_load (.ok (some (.mapping mapTag
        (NodePairs.append .nil (.cons
          (.sequence seqTag (.cons (.scalar intTag "1" ⟨0, 2⟩) .nil) ⟨0, 1⟩)
          (.scalar strTag "x" ⟨0, 8⟩) .nil)) ⟨0, 0⟩))) = .error m ∧
      strContains m ("found unacceptable key (unhashable type: " ++ quoteCh ++
        "list" ++ quoteCh ++ ")") = true :=
  C4_unhashable_key_fails ⟨0, 0⟩ .nil
    (.sequence seqTag (.cons (.scalar intTag "1" ⟨0, 2⟩) .nil) ⟨0, 1⟩)
    (.scalar strTag "x" ⟨0, 8⟩) .nil .nil (.list (.cons (.int 1) .nil)) rfl rfl rfl

/-- C5 counterexample: the duplicate-key error does not identify the
location.  Two documents that differ only in the positions of their nodes
(the duplicate key sits at line 2 in one and line 8 in the other) produce the
very same error message, which moreover contains no `line` and no `column`
rendering; only the literal key text is reported. -/
theorem C5_counterexample :
    safe_load (.ok (some (.mapping mapTag
      (.cons (.scalar strTag "a" ⟨0, 0⟩) (.scalar intTag "1" ⟨0, 3⟩)
        (.cons (.scalar strTag "a" ⟨1, 0⟩) (.scalar intTag "2" ⟨1, 3⟩) .nil)) ⟨0, 0⟩))) =
      .error "Failed to load workflow definition because found duplicate key \"a\"." ∧
    safe_load (.ok (some (.mapping mapTag
      (.cons (.scalar strTag "a" ⟨2, 4⟩) (.scalar intTag "1" ⟨2, 7⟩)
        (.cons (.scalar strTag "a" ⟨7, 5⟩) (.scalar intTag "2" ⟨7, 9⟩) .nil)) ⟨2, 2⟩))) =
      .error "Failed to load workflow definition because found duplicate key \"a\"." ∧
    strContains "Failed to load workflow definition because found duplicate key \"a\"."
      "line" = false ∧
    strContains "Failed to load workflow definition because found duplicate key \"a\"."
      "column" = false :=
  ⟨rfl, rfl, by decide, by decide⟩

/-- C5 (amended): when a duplicate key is found, the raised error identifies
the duplicate key literal text, but carries no location: the error is the
mark-free `found duplicate key "<text>"` constructor error, and the final
message is the same whatever the marks in the document are. -/
theorem C5_amended_duplicate_error_no_location :
    ∀ (mark : Mark) (pre : NodePairs) (kn vn : Node) (post : NodePairs)
      (acc : ObjDict) (k : Obj),
    constructPairs mark pre .nil = .ok acc →
    constructObject kn = .ok k → k.hashable = true → containsKey acc k = true →
    construct_mapping (.mapping mapTag (pre.append (.cons kn vn post)) mark) =
      .error (dupKeyErr kn.valueText) ∧
    safe_load (.ok (some (.mapping mapTag (pre.append (.cons kn vn post)) mark))) =
      .error ("Failed to load workflow definition because found duplicate key \"" ++
        kn.valueText ++ "\".") := by
  intro mark pre kn vn post acc k hpre hco hh hck
  have hcp : constructPairs mark (pre.append (.cons kn vn post)) .nil =
      .error (dupKeyErr kn.valueText) := by
    rw [constructPairs_append, hpre]
    simp [constructPairs, hco, hh, hck]
  constructor
  · simpa [construct_mapping] using hcp
  · have hobj : constructObject (.mapping mapTag (pre.append (.cons kn vn post)) mark) =
        .error (dupKeyErr kn.valueText) := by
      rw [constructObject_map, hcp]
    have hstr : (dupKeyErr kn.valueText).str =
        "found duplicate key \"" ++ kn.valueText ++ "\"" := by
      simp [dupKeyErr, PyErr.str, joinLines]
    have hsl : safe_load (.ok (some (.mapping mapTag (pre.append (.cons kn vn post)) mark))) =
        .error ("Failed to load workflow definition because " ++
          ("found duplicate key \"" ++ kn.valueText ++ "\"") ++ ".") := by
      simp [safe_load, yaml_load, hobj, hstr]
    rw [hsl, dup_msg_eq]

/-- Witness for C5 (amended) at the concrete document `a: 1, a: 2`. -/
theorem C5_amended_witness :
    construct_mapping (.mapping mapTag
      (NodePairs.append (.cons (.scalar strTag "a" ⟨0, 0⟩) (.scalar intTag "1" ⟨0, 3⟩) .nil)
        (.cons (.scalar strTag "a" ⟨1, 0⟩) (.scalar intTag "2" ⟨1, 3⟩) .nil)) ⟨0, 0⟩) =
      .error (dupKeyErr "a") ∧
    safe_load (.ok (some (.mapping mapTag
      (NodePairs.append (.cons (.scalar strTag "a" ⟨0, 0⟩) (.scalar intTag "1" ⟨0, 3⟩) .nil)
        (.cons (.scalar strTag "a" ⟨1, 0⟩) (.scalar intTag "2" ⟨1, 3⟩) .nil)) ⟨0, 0⟩))) =
      .error ("Failed to load workflow definition because found duplicate key \"" ++
        "a" ++ "\".") :=
  C5_amended_duplicate_error_no_location ⟨0, 0⟩
    (.cons (.scalar strTag "a" ⟨0, 0⟩) (.scalar intTag "1" ⟨0, 3⟩) .nil)
    (.scalar strTag "a" ⟨1, 0⟩) (.scalar intTag "2" ⟨1, 3⟩) .nil
    (.cons (.str "a") (.int 1) .nil) (.str "a") rfl rfl rfl rfl

/-- C6 counterexample: the kind-check message of the mapping constructor is
`expected a mapping node, but found <kind>`, not
`expected a mapping node, found <kind>`: on a sequence node the raised error
message does not contain the claimed phrase. -/
theorem C6_counterexample :
    construct_mapping (.sequence seqTag .nil ⟨3, 5⟩) =
      .error (.constructorError none none
        (some "expected a mapping node, but found sequence") (some ⟨3, 5⟩)) ∧
    strContains (PyErr.str (.constructorError none none
        (some "expected a mapping node, but found sequence") (some ⟨3, 5⟩)))
      "expected a mapping node, found " = false :=
  ⟨rfl, by decide⟩

/-- C6 (amended): applied to any node that is not a mapping node,
`construct_mapping` fails with the constructor error whose problem line is
exactly `expected a mapping node, but found <kind>`, naming the kind of node
found, and the rendered message contains that line. -/
theorem C6_amended_expected_mapping_message :
    ∀ n : Node, n.isMapping = false →
    construct_mapping n = .error (.constructorError none none
      (some ("expected a mapping node, but found " ++ n.id)) (some n.start_mark)) ∧
    strContains (PyErr.str (.constructorError none none
        (some ("expected a mapping node, but found " ++ n.id)) (some n.start_mark)))
      ("expected a mapping node, but found " ++ n.id) = true := by
  intro n hm
  constructor
  · match n, hm with
    | .scalar t v m, _ => rfl
    | .sequence t ch m, _ => rfl
    | .mapping t ps m, hm => exact absurd hm (by simp [Node.isMapping])
  · have hrw : PyErr.str (.constructorError none none
        (some ("expected a mapping node, but found " ++ n.id)) (some n.start_mark)) =
        joinLines [("expected a mapping node, but found " ++ n.id), markStr n.start_mark] := by
      simp [PyErr.str]
    rw [hrw]
    apply strContains_joinLines
    simp

/-- Witness for C6 (amended) at a concrete scalar node. -/
theorem C6_amended_witness :
    construct_mapping (.scalar strTag "x" ⟨1, 2⟩) = .error (.constructorError none none
      (some ("expected a mapping node, but found " ++ (Node.scalar strTag "x" ⟨1, 2⟩).id))
      (some (Node.scalar strTag "x" ⟨1, 2⟩).start_mark)) ∧
    strContains (PyErr.str (.constructorError none none
        (some ("expected a mapping node, but found " ++ (Node.scalar strTag "x" ⟨1, 2⟩).id))
        (some (Node.scalar strTag "x" ⟨1, 2⟩).start_mark)))
      ("expected a mapping node, but found " ++ (Node.scalar strTag "x" ⟨1, 2⟩).id) = true :=
  C6_amended_expected_mapping_message (.scalar strTag "x" ⟨1, 2⟩) rfl
